import Mathlib

/-!
Verification of the SMS phishing detector's response-normalization layer
(`call_gemini_sms_image`), highlighting formatter (`highlight_phrases`) and
route handler (`index`) from `app.py`, via a shallow embedding of the
Python code over a JSON-like value type.

Modelling conventions:
* JSON-decoded Python values are `JVal` (null / bool / int / float / str /
  list / dict).  Floats are modelled as rationals; IEEE `inf`/`nan` literals
  and exponent/underscore forms of `float(...)` string parsing are outside
  the model (no claim depends on them).
* Python exceptions are modelled by `Except PyErr`; code that Python runs
  sequentially is sequenced so the first raised exception wins, as in Python.
* `str()` on lists/dicts uses a `repr`-like rendering; its exact text is
  never relevant to a claim, only that it is some string.
* CPython's `set` iteration order is implementation-defined; `set(...)`
  dedup is modelled as first-occurrence dedup (`dedupFirst`).  Python's
  cross-type numeric equality (1 == 1.0 == True) inside `set` is not
  modelled; no claim depends on it.
* `str.strip`/`str.lower` are modelled by `strTrim`/`strLower`
  (ASCII; the unicode extensions are irrelevant to every claim).
-/

inductive PyErr where
  | attributeError
  | typeError
deriving DecidableEq, Repr

inductive JVal where
  | null
  | bool (b : Bool)
  | int (n : Int)
  | num (q : Rat)
  | str (s : String)
  | list (xs : List JVal)
  | obj (kvs : List (String × JVal))

mutual

/-- Structural equality test on `JVal` (models `==` on JSON-decoded values
of like type; Python's cross-type numeric equality is not modelled). -/
def JVal.beq : JVal → JVal → Bool
  | .null, .null => true
  | .bool a, .bool b => a == b
  | .int a, .int b => a == b
  | .num a, .num b => a == b
  | .str a, .str b => a == b
  | .list a, .list b => JVal.beqList a b
  | .obj a, .obj b => JVal.beqObj a b
  | _, _ => false

def JVal.beqList : List JVal → List JVal → Bool
  | [], [] => true
  | a :: as, b :: bs => JVal.beq a b && JVal.beqList as bs
  | _, _ => false

def JVal.beqObj : List (String × JVal) → List (String × JVal) → Bool
  | [], [] => true
  | (k, a) :: as, (l, b) :: bs => k == l && JVal.beq a b && JVal.beqObj as bs
  | _, _ => false

end

instance : BEq JVal := ⟨JVal.beq⟩

def JVal.isStr : JVal → Bool
  | .str _ => true
  | _ => false

def JVal.isObj : JVal → Bool
  | .obj _ => true
  | _ => false

/-- Python values that `set()` accepts as elements (hashable). -/
def JVal.hashable : JVal → Bool
  | .list _ => false
  | .obj _ => false
  | _ => true

mutual

/-- Model of Python `repr` on JSON-decoded values. -/
def pyRepr : JVal → String
  | .null => "None"
  | .bool b => if b then "True" else "False"
  | .int n => toString n
  | .num q => if q.den == 1 then toString q.num ++ ".0" else toString q
  | .str s => "\x27" ++ s ++ "\x27"
  | .list xs => "[" ++ pyReprSeq xs ++ "]"
  | .obj kvs => "\x7b" ++ pyReprObj kvs ++ "\x7d"

def pyReprSeq : List JVal → String
  | [] => ""
  | [x] => pyRepr x
  | x :: xs => pyRepr x ++ ", " ++ pyReprSeq xs

def pyReprObj : List (String × JVal) → String
  | [] => ""
  | [(k, v)] => "\x27" ++ k ++ "\x27: " ++ pyRepr v
  | (k, v) :: kvs => "\x27" ++ k ++ "\x27: " ++ pyRepr v ++ ", " ++ pyReprObj kvs

end

/-- Model of Python `str()` on JSON-decoded values. -/
def pyStr : JVal → String
  | .str s => s
  | v => pyRepr v

/-- Model of Python `str.lower` (ASCII case mapping). -/
def strLower (s : String) : String :=
  String.mk (s.toList.map Char.toLower)

/-- Model of Python `str.strip()`: remove leading and trailing whitespace. -/
def strTrim (s : String) : String :=
  String.mk (((s.toList.dropWhile (·.isWhitespace)).reverse.dropWhile
    (·.isWhitespace)).reverse)

/-- Model of `float(s)` for strings: optional surrounding whitespace, an
optional sign, digits with at most one decimal point, at least one digit.
(The model omits exponents, underscores, `inf` and `nan`; unparseable
strings fail, as in Python.) -/
def parseFloatChars (cs : List Char) : Option Rat :=
  let cs := (cs.dropWhile (·.isWhitespace)).reverse.dropWhile (·.isWhitespace) |>.reverse
  let (sgn, cs) :=
    match cs with
    | '-' :: rest => ((-1 : Int), rest)
    | '+' :: rest => ((1 : Int), rest)
    | _ => ((1 : Int), cs)
  let ipart := cs.takeWhile (·.isDigit)
  let rest := cs.dropWhile (·.isDigit)
  match rest with
  | [] =>
    if ipart.isEmpty then none
    else
      let n : Nat := ipart.foldl (fun a c => a * 10 + (c.toNat - 48)) 0
      some ((sgn * (n : Int) : Int) : Rat)
  | '.' :: rest2 =>
    let fpart := rest2.takeWhile (·.isDigit)
    let rest3 := rest2.dropWhile (·.isDigit)
    if rest3.isEmpty && !(ipart.isEmpty && fpart.isEmpty) then
      let n : Nat := (ipart ++ fpart).foldl (fun a c => a * 10 + (c.toNat - 48)) 0
      some (((sgn * (n : Int) : Int) : Rat) / (10 : Rat) ^ fpart.length)
    else none
  | _ => none

/-- Model of Python `float(x)`: `none` models a raised conversion error
(always caught by the surrounding `try`/`except` in the source). -/
def pyFloat : JVal → Option Rat
  | .int n => some (n : Rat)
  | .num q => some q
  | .bool b => some (if b then 1 else 0)
  | .str s => parseFloatChars s.toList
  | _ => none

/-- Model of `x.get(k, d)`: only dicts have `.get`; anything else raises
`AttributeError`.  A key present with value `null` returns `null`, not the
default, as in Python. -/
def dictGet (x : JVal) (k : String) (d : JVal) : Except PyErr JVal :=
  match x with
  | .obj kvs => .ok ((kvs.lookup k).getD d)
  | _ => .error .attributeError

/-- Model of Python iteration `for r in v`: lists yield their elements,
strings their characters, dicts their keys; everything else raises
`TypeError`. -/
def pyIter : JVal → Except PyErr (List JVal)
  | .list xs => .ok xs
  | .str s => .ok (s.toList.map (fun c => .str c.toString))
  | .obj kvs => .ok (kvs.map (fun kv => .str kv.1))
  | _ => .error .typeError

def dedupFirstAux [BEq α] (seen : List α) : List α → List α
  | [] => []
  | x :: xs =>
    if seen.contains x then dedupFirstAux seen xs
    else x :: dedupFirstAux (x :: seen) xs

/-- Model of `list(set(xs))` (first-occurrence order; CPython's actual set
order is implementation-defined and no claim depends on it). -/
def dedupFirst [BEq α] (xs : List α) : List α :=
  dedupFirstAux [] xs

/-- Sequential effectful map, modelling a Python `for` loop that appends
one result per element and propagates the first raised exception. -/
def mapExcept (f : α → Except ε β) : List α → Except ε (List β)
  | [] => .ok []
  | x :: xs =>
    match f x with
    | .error e => .error e
    | .ok y =>
      match mapExcept f xs with
      | .error e => .error e
      | .ok ys => .ok (y :: ys)

structure UrlEntry where
  url : String
  status : String
deriving DecidableEq, Repr

/-- The `GeminiSMSResult` dataclass of `app.py`.  Python does not enforce
the declared field types, so `risky_phrases` keeps raw values. -/
structure GeminiSMSResult where
  verdict : String
  confidence : Rat
  reasons : List String
  risky_phrases : List JVal
  urls : List UrlEntry
  user_message : String

/-- Line 96-98 of `app.py`:
`verdict = str(data.get("verdict", "unknown")).lower()` followed by the
membership check that collapses everything else to `"unknown"`. -/
def normVerdict (data : JVal) : Except PyErr String :=
  match dictGet data "verdict" (.str "unknown") with
  | .error e => .error e
  | .ok v =>
    let s := strLower (pyStr v)
    .ok (if s = "safe" ∨ s = "suspicious" ∨ s = "phishing" then s else "unknown")

/-- Lines 100-104 of `app.py`: `float(data.get("confidence", 0.0))` inside
`try`/`except` (conversion failure gives `0.0`), then
`max(0.0, min(1.0, confidence))`. -/
def normConfidence (data : JVal) : Except PyErr Rat :=
  match dictGet data "confidence" (.num 0) with
  | .error e => .error e
  | .ok v => .ok (max 0 (min 1 ((pyFloat v).getD 0)))

/-- Line 106 of `app.py`: `[str(r) for r in data.get("reasons", [])][:6]`.
Iterating a non-iterable value raises `TypeError`. -/
def normReasons (data : JVal) : Except PyErr (List String) :=
  match dictGet data "reasons" (.list []) with
  | .error e => .error e
  | .ok v =>
    match pyIter v with
    | .error e => .error e
    | .ok xs => .ok ((xs.map pyStr).take 6)

/-- Line 107 of `app.py`: `list(set(data.get("risky_phrases", [])))`.
`set()` raises `TypeError` on a non-iterable argument or an unhashable
element. -/
def normRisky (data : JVal) : Except PyErr (List JVal) :=
  match dictGet data "risky_phrases" (.list []) with
  | .error e => .error e
  | .ok v =>
    match pyIter v with
    | .error e => .error e
    | .ok xs =>
      if xs.any (fun x => !x.hashable) then .error .typeError
      else .ok (dedupFirst xs)

/-- Lines 111-115 of `app.py`, the body of the `urls` loop:
`str(item.get("url", "")).strip()`, `str(item.get("status", "")).lower()`,
and the fail-safe defaulting of unrecognized statuses to `"suspicious"`. -/
def normUrlItem (item : JVal) : Except PyErr UrlEntry :=
  match dictGet item "url" (.str "") with
  | .error e => .error e
  | .ok uv =>
    match dictGet item "status" (.str "") with
    | .error e => .error e
    | .ok sv =>
      let u := strTrim (pyStr uv)
      let s := strLower (pyStr sv)
      .ok ⟨u, if s = "safe" ∨ s = "suspicious" ∨ s = "phishing" then s else "suspicious"⟩

/-- Lines 109-115 of `app.py`: the `for item in data.get("urls", [])` loop. -/
def normUrls (data : JVal) : Except PyErr (List UrlEntry) :=
  match dictGet data "urls" (.list []) with
  | .error e => .error e
  | .ok v =>
    match pyIter v with
    | .error e => .error e
    | .ok xs => mapExcept normUrlItem xs

/-- Line 117 of `app.py`:
`data.get("user_message", "").strip() or "No explanation provided."`.
The value is not coerced with `str()`, so `.strip()` raises
`AttributeError` on any present non-string value. -/
def normUserMessage (data : JVal) : Except PyErr String :=
  match dictGet data "user_message" (.str "") with
  | .error e => .error e
  | .ok v =>
    match v with
    | .str s =>
      let t := strTrim s
      .ok (if t = "" then "No explanation provided." else t)
    | _ => .error .attributeError

/-- Lines 96-126 of `app.py`: the response-normalization step, executed in
source order; the first raised exception aborts the whole computation. -/
def normalizeResponse (data : JVal) : Except PyErr GeminiSMSResult :=
  match normVerdict data with
  | .error e => .error e
  | .ok verdict =>
  match normConfidence data with
  | .error e => .error e
  | .ok confidence =>
  match normReasons data with
  | .error e => .error e
  | .ok reasons =>
  match normRisky data with
  | .error e => .error e
  | .ok risky_phrases =>
  match normUrls data with
  | .error e => .error e
  | .ok urls =>
  match normUserMessage data with
  | .error e => .error e
  | .ok user_message =>
    .ok ⟨verdict, confidence, reasons, risky_phrases, urls, user_message⟩

/-- Lines 86-94 of `app.py`: the fallback payload built in the `except`
branch; `e` is `str(exception)`. -/
def fallbackData (e : String) : JVal :=
  .obj [("verdict", .str "unknown"),
        ("confidence", .num 0),
        ("reasons", .list [.str ("Gemini error: " ++ e)]),
        ("risky_phrases", .list []),
        ("urls", .list []),
        ("user_message", .str "Automatic analysis failed.")]

/-- Lines 58-126 of `app.py`.  The `try` block (image open, model call,
`json.loads`) is modelled by its outcome: `.ok data` when it produced a
decoded reply, `.error e` when any of it raised an exception with message
`e`; the `except` branch substitutes `fallbackData e`, and the rest of the
function normalizes `data`. -/
def call_gemini_sms_image (tryResult : Except String JVal) : Except PyErr GeminiSMSResult :=
  match tryResult with
  | .ok data => normalizeResponse data
  | .error e => normalizeResponse (fallbackData e)

/-- Python regex word character (`\w`), ASCII fragment: letters, digits,
underscore.  (The unicode extension is irrelevant to every claim.) -/
def isWordChar (c : Char) : Bool :=
  c.isAlphanum || c == '_'

/-- Case-insensitive equality of two character lists, as under `(?i)`. -/
def ciEq : List Char → List Char → Bool
  | [], [] => true
  | a :: as, b :: bs => a.toLower == b.toLower && ciEq as bs
  | _, _ => false

/-- One pass of `re.compile(rf"(?i)\b(<literal p>)\b").sub(rep, s)`:
scan left to right; at each position, if the literal phrase `p` matches
case-insensitively with a word boundary on both sides, emit `rep` and
resume after the match (the emitted replacement is not rescanned, the
following boundary is judged against the last matched source character,
as in `re.sub`).  `\b` holds between two positions iff exactly one side
is a word character, with the ends of the string counting as non-word.
`fuel` is an upper bound on steps (`xs.length + 1` always suffices) that
makes the recursion structural. -/
def subFuel (p rep : List Char) : Nat → Bool → List Char → List Char
  | 0, _, xs => xs
  | _ + 1, prevW, [] => if p.isEmpty && prevW then rep else []
  | fuel + 1, prevW, c :: rest =>
    if p.isEmpty then
      (if prevW != isWordChar c then rep else []) ++
        c :: subFuel p rep fuel (isWordChar c) rest
    else
      let m := (c :: rest).take p.length
      let lastc := m.getLastD c
      let after := (c :: rest).drop p.length
      let afterW := match after with | [] => false | d :: _ => isWordChar d
      if ciEq m p && (prevW != isWordChar c) && (isWordChar lastc != afterW) then
        rep ++ subFuel p rep fuel (isWordChar lastc) after
      else
        c :: subFuel p rep fuel (isWordChar c) rest

/-- Line 51-52 of `app.py`: compile `rf"(?i)\b({re.escape(p)})\b"` (the
escape makes `p` a literal) and substitute every match by `rep`. -/
def reSubWordCI (p rep s : String) : String :=
  String.mk (subFuel p.toList rep.toList (s.toList.length + 1) false s.toList)

/-- Character-level escaping of `markupsafe.escape`. -/
def escChar (c : Char) : List Char :=
  if c == '&' then "&amp;".toList
  else if c == '<' then "&lt;".toList
  else if c == '>' then "&gt;".toList
  else if c == '"' then "&#34;".toList
  else if c == '\x27' then "&#39;".toList
  else [c]

/-- Model of `markupsafe.escape` on a string. -/
def htmlEscape (s : String) : String :=
  String.mk (s.toList.flatMap escChar)

/-- Stable insertion into a length-descending list: `x` goes before the
first element that is strictly shorter, so earlier equal-length elements
stay in front (Python's `sorted` is stable). -/
def insertDesc (x : String) : List String → List String
  | [] => [x]
  | y :: ys => if x.length < y.length then y :: insertDesc x ys else x :: y :: ys

/-- Model of `sorted(·, key=len, reverse=True)`: stable sort by descending
length. -/
def sortLenDesc : List String → List String
  | [] => []
  | x :: xs => insertDesc x (sortLenDesc xs)

/-- Lines 48-53 of `app.py`.  `escape(text or "")` is `htmlEscape` (the
`or ""` only replaces falsy input by `""`, which escapes to itself);
`sorted(set(phrases), key=len, reverse=True)` is the dedup + stable
descending-length sort; the replacement string `r"<mark>\\1</mark>"`
contains an escaped backslash, so `re.sub` substitutes the literal text
`<mark>\1</mark>` (no group reference). -/
def highlight_phrases (text : String) (phrases : List String) : String :=
  let escaped := htmlEscape text
  (sortLenDesc (dedupFirst phrases)).foldl
    (fun acc p => reSubWordCI p "<mark>\\1</mark>" acc) escaped

/-- Line 21 of `app.py`. -/
def UPLOAD_FOLDER : String := "static/uploads"

/-- Lines 156-162 of `app.py`: the fixed recommended-actions list. -/
def recommendations : List String :=
  ["Don’t click links in suspicious messages.",
   "Never share passwords or OTP over SMS.",
   "Contact the organization via official channels.",
   "Report phishing SMS to your carrier or cybercrime authority.",
   "Delete the SMS if phishing is confirmed."]

/-- Model of Python `f"{x:.2f}"` on the clamped confidence (rounding is
half-up here; the half-even detail of float formatting is irrelevant to
every claim). -/
def formatConf (q : Rat) : String :=
  let m := (q * 100 + 1 / 2).floor
  let f := (m % 100).toNat
  toString (m / 100) ++ "." ++ (if f < 10 then "0" else "") ++ toString f

/-- The `analysis` dict built on lines 148-163 of `app.py`. -/
structure AnalysisView where
  badge : String
  verdict : String
  confidence : String
  reasons : List String
  risky_phrases : List JVal
  urls : List UrlEntry
  user_message : String
  recs : List String

/-- The keyword arguments of `render_template` on lines 165-169. -/
structure RenderCtx where
  image_path : Option String
  sms_text : String
  highlighted_text : String
  analysis : Option AnalysisView

/-- Line 144 of `app.py`: the verdict badge dictionary lookup with default
`"❔ Unknown"`. -/
def badgeOf (verdict : String) : String :=
  if verdict = "safe" then "✅ Safe"
  else if verdict = "suspicious" then "⚠ Suspicious"
  else if verdict = "phishing" then "❌ Phishing"
  else "❔ Unknown"

/-- Lines 131-169 of `app.py`: the `index` route handler.  `file?` models
`request.files.get("image")` (`none` when the field is absent, otherwise
the uploaded filename); the Python truthiness test `file and file.filename`
skips the analysis when the field is absent or the filename empty.
`modelResult` is the outcome of the `try` block of `call_gemini_sms_image`
(unused unless the analysis branch runs).  The file save is a side effect
outside the model.  In `highlight_phrases`, `len(p)` on a non-string
phrase raises `TypeError`, modelled by the `mapExcept` over
`risky_phrases`. -/
def index (method : String) (file? : Option String) (modelResult : Except String JVal) :
    Except PyErr RenderCtx :=
  if method = "POST" then
    match file? with
    | some fname =>
      if fname = "" then .ok ⟨none, "", "", none⟩
      else
        match call_gemini_sms_image modelResult with
        | .error e => .error e
        | .ok gem =>
          match mapExcept
              (fun v => match v with
                | JVal.str s => Except.ok s
                | _ => Except.error PyErr.typeError) gem.risky_phrases with
          | .error e => .error e
          | .ok phrases =>
            let ht := highlight_phrases "(OCR skipped – Gemini vision used)" phrases
            .ok ⟨some (UPLOAD_FOLDER ++ "/" ++ fname), "", ht,
                 some ⟨badgeOf gem.verdict, gem.verdict, formatConf gem.confidence,
                       gem.reasons, gem.risky_phrases, gem.urls, gem.user_message,
                       recommendations⟩⟩
    | none => .ok ⟨none, "", "", none⟩
  else .ok ⟨none, "", "", none⟩

/-- The shapes of mapping payload under which every field of the
normalizer succeeds: `reasons` absent or iterable, `risky_phrases` absent
or iterable with hashable elements, `urls` absent or iterable with mapping
entries, `user_message` absent or a string.  (`verdict` and `confidence`
never raise on a mapping payload.) -/
def wellShaped (kvs : List (String × JVal)) : Bool :=
  (match kvs.lookup "reasons" with
   | none => true
   | some v => (pyIter v).isOk) &&
  (match kvs.lookup "risky_phrases" with
   | none => true
   | some v => match pyIter v with
     | .ok xs => xs.all JVal.hashable
     | .error _ => false) &&
  (match kvs.lookup "urls" with
   | none => true
   | some v => match pyIter v with
     | .ok xs => xs.all JVal.isObj
     | .error _ => false) &&
  (match kvs.lookup "user_message" with
   | none => true
   | some v => v.isStr)

theorem normVerdict_obj (kvs : List (String × JVal)) :
    normVerdict (.obj kvs) = .ok
      (let s := strLower (pyStr ((kvs.lookup "verdict").getD (.str "unknown")))
       if s = "safe" ∨ s = "suspicious" ∨ s = "phishing" then s else "unknown") := rfl

theorem normConfidence_obj (kvs : List (String × JVal)) :
    normConfidence (.obj kvs) = .ok
      (max 0 (min 1 ((pyFloat ((kvs.lookup "confidence").getD (.num 0))).getD 0))) := rfl

theorem normReasons_obj (kvs : List (String × JVal)) :
    normReasons (.obj kvs) =
      (match pyIter ((kvs.lookup "reasons").getD (.list [])) with
       | .error e => .error e
       | .ok xs => .ok ((xs.map pyStr).take 6)) := rfl

theorem normRisky_obj (kvs : List (String × JVal)) :
    normRisky (.obj kvs) =
      (match pyIter ((kvs.lookup "risky_phrases").getD (.list [])) with
       | .error e => .error e
       | .ok xs =>
         if xs.any (fun x => !x.hashable) then .error .typeError
         else .ok (dedupFirst xs)) := rfl

theorem normUrls_obj (kvs : List (String × JVal)) :
    normUrls (.obj kvs) =
      (match pyIter ((kvs.lookup "urls").getD (.list [])) with
       | .error e => .error e
       | .ok xs => mapExcept normUrlItem xs) := rfl

theorem normUrlItem_obj (ikvs : List (String × JVal)) :
    normUrlItem (.obj ikvs) = .ok
      ⟨strTrim (pyStr ((ikvs.lookup "url").getD (.str ""))),
       let s := strLower (pyStr ((ikvs.lookup "status").getD (.str "")))
       if s = "safe" ∨ s = "suspicious" ∨ s = "phishing" then s else "suspicious"⟩ := rfl

theorem normUserMessage_obj (kvs : List (String × JVal)) :
    normUserMessage (.obj kvs) =
      (match (kvs.lookup "user_message").getD (.str "") with
       | .str s => .ok (if strTrim s = "" then "No explanation provided." else strTrim s)
       | _ => .error .attributeError) := rfl

theorem normalizeResponse_ok_elim {data : JVal} {r : GeminiSMSResult}
    (h : normalizeResponse data = .ok r) :
    normVerdict data = .ok r.verdict ∧ normConfidence data = .ok r.confidence ∧
    normReasons data = .ok r.reasons ∧ normRisky data = .ok r.risky_phrases ∧
    normUrls data = .ok r.urls ∧ normUserMessage data = .ok r.user_message := by
  unfold normalizeResponse at h
  split at h
  · exact Except.noConfusion h
  split at h
  · exact Except.noConfusion h
  split at h
  · exact Except.noConfusion h
  split at h
  · exact Except.noConfusion h
  split at h
  · exact Except.noConfusion h
  split at h
  · exact Except.noConfusion h
  injection h with h
  subst h
  exact ⟨by assumption, by assumption, by assumption, by assumption,
         by assumption, by assumption⟩

theorem normalizeResponse_build {data : JVal} {v : String} {c : Rat}
    {rs : List String} {rp : List JVal} {us : List UrlEntry} {um : String}
    (h1 : normVerdict data = .ok v) (h2 : normConfidence data = .ok c)
    (h3 : normReasons data = .ok rs) (h4 : normRisky data = .ok rp)
    (h5 : normUrls data = .ok us) (h6 : normUserMessage data = .ok um) :
    normalizeResponse data = .ok ⟨v, c, rs, rp, us, um⟩ := by
  unfold normalizeResponse
  rw [h1, h2, h3, h4, h5, h6]

theorem normVerdict_ok_cases {data : JVal} {s : String} (h : normVerdict data = .ok s) :
    s = "safe" ∨ s = "suspicious" ∨ s = "phishing" ∨ s = "unknown" := by
  cases data <;> simp [normVerdict, dictGet] at h
  case obj kvs =>
    split at h
    · subst h; rename_i hc; tauto
    · subst h; tauto

theorem confidence_clamp_bounds (q : Rat) : 0 ≤ max 0 (min 1 q) ∧ max 0 (min 1 q) ≤ 1 :=
  ⟨le_max_left 0 (min 1 q), max_le (by norm_num) (min_le_left 1 q)⟩

theorem mapExcept_ok_of_all_obj (xs : List JVal) (h : ∀ x ∈ xs, x.isObj = true) :
    ∃ ys, mapExcept normUrlItem xs = .ok ys := by
  induction xs with
  | nil => exact ⟨[], rfl⟩
  | cons x rest ih =>
    obtain ⟨ys, hys⟩ := ih (fun z hz => h z (List.mem_cons_of_mem x hz))
    have hx := h x (List.mem_cons_self x rest)
    cases x <;> simp [JVal.isObj] at hx
    case obj ikvs =>
      exact ⟨_, by rw [mapExcept, normUrlItem_obj, hys]⟩

theorem exceptOk_exists {ε α : Type} {e : Except ε α} (h : e.isOk = true) :
    ∃ x, e = .ok x := by
  cases e with
  | ok x => exact ⟨x, rfl⟩
  | error _ => simp [Except.isOk, Except.toBool] at h

theorem mem_insertDesc {x z : String} {l : List String} :
    z ∈ insertDesc x l ↔ z = x ∨ z ∈ l := by
  induction l with
  | nil => simp [insertDesc]
  | cons y ys ih =>
    by_cases hc : x.length < y.length
    · simp only [insertDesc, if_pos hc, List.mem_cons, ih]
      tauto
    · simp only [insertDesc, if_neg hc, List.mem_cons]

theorem pairwise_insertDesc {x : String} {l : List String}
    (h : l.Pairwise (fun a b => b.length ≤ a.length)) :
    (insertDesc x l).Pairwise (fun a b => b.length ≤ a.length) := by
  induction l with
  | nil => simp [insertDesc]
  | cons y ys ih =>
    rcases List.pairwise_cons.mp h with ⟨hy, hys⟩
    by_cases hc : x.length < y.length
    · rw [insertDesc, if_pos hc]
      refine List.pairwise_cons.mpr ⟨?_, ih hys⟩
      intro z hz
      rcases mem_insertDesc.mp hz with rfl | hz
      · exact le_of_lt hc
      · exact hy z hz
    · rw [insertDesc, if_neg hc]
      refine List.pairwise_cons.mpr ⟨?_, List.pairwise_cons.mpr ⟨hy, hys⟩⟩
      intro z hz
      rcases List.mem_cons.mp hz with rfl | hz
      · exact Nat.le_of_not_lt hc
      · exact le_trans (hy z hz) (Nat.le_of_not_lt hc)

theorem sortLenDesc_pairwise (ps : List String) :
    (sortLenDesc ps).Pairwise (fun a b => b.length ≤ a.length) := by
  induction ps with
  | nil => simp [sortLenDesc]
  | cons x xs ih => exact pairwise_insertDesc ih

theorem insertDesc_perm (x : String) (l : List String) :
    (insertDesc x l).Perm (x :: l) := by
  induction l with
  | nil => simp [insertDesc]
  | cons y ys ih =>
    by_cases hc : x.length < y.length
    · rw [insertDesc, if_pos hc]
      exact (ih.cons y).trans (List.Perm.swap x y ys)
    · rw [insertDesc, if_neg hc]

theorem sortLenDesc_perm (ps : List String) : (sortLenDesc ps).Perm ps := by
  induction ps with
  | nil => exact List.Perm.refl []
  | cons x xs ih => exact (insertDesc_perm x (sortLenDesc xs)).trans (ih.cons x)

theorem dedupFirstAux_nodup {α : Type} [BEq α] [LawfulBEq α] (xs : List α) :
    ∀ seen : List α, (dedupFirstAux seen xs).Nodup ∧
      ∀ z ∈ dedupFirstAux seen xs, seen.contains z = false := by
  induction xs with
  | nil => intro seen; simp [dedupFirstAux]
  | cons x rest ih =>
    intro seen
    by_cases hc : seen.contains x
    · rw [dedupFirstAux, if_pos hc]
      exact ih seen
    · rw [dedupFirstAux, if_neg hc]
      obtain ⟨hnd, hdis⟩ := ih (x :: seen)
      refine ⟨List.nodup_cons.mpr ⟨?_, hnd⟩, ?_⟩
      · intro hmem
        have := hdis x hmem
        simp [List.contains_cons] at this
      · intro z hz
        rcases List.mem_cons.mp hz with rfl | hz
        · exact Bool.eq_false_iff.mpr hc
        · have := hdis z hz
          simp [List.contains_cons] at this
          exact Bool.eq_false_iff.mpr (fun hcz => (this.2 (by simpa using hcz)))

theorem dedupFirst_nodup {α : Type} [BEq α] [LawfulBEq α] (xs : List α) :
    (dedupFirst xs).Nodup :=
  (dedupFirstAux_nodup xs []).1

theorem normReasons_none {kvs : List (String × JVal)}
    (hl : List.lookup "reasons" kvs = none) :
    normReasons (.obj kvs) = .ok [] := by
  rw [normReasons_obj, hl]; exact rfl

theorem normReasons_list {kvs : List (String × JVal)} {xs : List JVal}
    (hl : List.lookup "reasons" kvs = some (.list xs)) :
    normReasons (.obj kvs) = .ok ((xs.map pyStr).take 6) := by
  rw [normReasons_obj, hl]; exact rfl

theorem normReasons_err {kvs : List (String × JVal)} {v : JVal}
    (hl : List.lookup "reasons" kvs = some v) (hi : pyIter v = .error .typeError) :
    normReasons (.obj kvs) = .error .typeError := by
  rw [normReasons_obj, hl, Option.getD_some, hi]

theorem normUserMessage_none {kvs : List (String × JVal)}
    (hl : List.lookup "user_message" kvs = none) :
    normUserMessage (.obj kvs) = .ok "No explanation provided." := by
  rw [normUserMessage_obj, hl]; exact rfl

theorem normUserMessage_str {kvs : List (String × JVal)} {s : String}
    (hl : List.lookup "user_message" kvs = some (.str s)) :
    normUserMessage (.obj kvs) =
      .ok (if strTrim s = "" then "No explanation provided." else strTrim s) := by
  rw [normUserMessage_obj, hl]; exact rfl

theorem normVerdict_str {kvs : List (String × JVal)} {s : String}
    (hl : List.lookup "verdict" kvs = some (.str s)) :
    normVerdict (.obj kvs) = .ok
      (if strLower s = "safe" ∨ strLower s = "suspicious" ∨ strLower s = "phishing"
       then strLower s else "unknown") := by
  rw [normVerdict_obj, hl]; exact rfl

theorem normVerdict_none {kvs : List (String × JVal)}
    (hl : List.lookup "verdict" kvs = none) :
    normVerdict (.obj kvs) = .ok "unknown" := by
  rw [normVerdict_obj, hl]; exact rfl

theorem isStr_exists {v : JVal} (h : v.isStr = true) : ∃ s, v = .str s := by
  cases v <;> simp [JVal.isStr] at h
  exact ⟨_, rfl⟩

/-- C1 counterexample: a payload that is valid JSON but not a mapping (here
the empty list) makes the normalization step of `call_gemini_sms_image`
raise `AttributeError` (`data.get` on a list), so the Response Normalizer
is not total on non-mapping payloads. -/
theorem C1_counterexample :
    call_gemini_sms_image (.ok (.list [])) = .error .attributeError := rfl

/-- C2 (code bug evaluation): at text `"Your OTP is urgent"` with phrases
`OTP` and `urgent`, `highlight_phrases` replaces each match with the
literal text `<mark>\1</mark>` — the replacement string
`r"<mark>\\1</mark>"` escapes the backslash, so `\1` is not a group
reference — instead of wrapping the matched text with its casing
preserved. -/
theorem C2_bug_eval :
    highlight_phrases "Your OTP is urgent" ["OTP", "urgent"] =
      "Your <mark>\\1</mark> is <mark>\\1</mark>" ∧
    highlight_phrases "Your OTP is urgent" ["OTP", "urgent"] ≠
      "Your <mark>OTP</mark> is <mark>urgent</mark>" :=
  ⟨by decide, by decide⟩

/-- C3 counterexample: a present but non-iterable `reasons` field makes the
normalizer raise `TypeError` instead of substituting an empty sequence. -/
theorem C3_counterexample :
    normalizeResponse (.obj [("reasons", .int 5)]) = .error .typeError := rfl

/-- C4 counterexample: a present non-string `user_message` value makes the
normalizer raise `AttributeError` (the code calls `.strip()` without a
`str()` coercion), so no output with a fallback message is produced. -/
theorem C4_counterexample :
    normalizeResponse (.obj [("user_message", .int 5)]) = .error .attributeError := rfl

/-- C5: whenever the model call or JSON decoding of its reply raises
(modelled by `tryResult = .error e` with `e` the exception text), the
`except` branch substitutes the fallback payload and the call returns a
fully-defaulted result — verdict `"unknown"`, confidence `0.0`, the single
synthetic reason `"Gemini error: " ++ e`, empty `risky_phrases` and
`urls`, and `user_message` `"Automatic analysis failed."` — and never an
error. -/
theorem C5_transport_failure_defaults (e : String) :
    call_gemini_sms_image (.error e) =
      .ok ⟨"unknown", 0, ["Gemini error: " ++ e], [], [], "Automatic analysis failed."⟩ := rfl

theorem C5_witness :
    call_gemini_sms_image (.error "boom") =
      .ok ⟨"unknown", 0, ["Gemini error: boom"], [], [], "Automatic analysis failed."⟩ :=
  C5_transport_failure_defaults "boom"

/-- C7 counterexample: with phrases `"act now"` and `"now"` on text
`"act now"`, the longer phrase is processed first but its match is
replaced by the literal `<mark>\1</mark>` — the output does not contain
the matched text wrapped in a marker, so the claim that the longer phrase
"is wrapped" fails. -/
theorem C7_counterexample :
    highlight_phrases "act now" ["act now", "now"] = "<mark>\\1</mark>" ∧
    highlight_phrases "act now" ["act now", "now"] ≠ "<mark>act now</mark>" :=
  ⟨by decide, by decide⟩

/-- C7 (amended): `highlight_phrases` deduplicates the phrase set and
processes the phrases in descending order of length (the processed list is
duplicate-free and pairwise length-descending for every input); each match
is replaced by the literal text `<mark>\1</mark>` rather than wrapped, so
on the cited example pair (`"act now"`, `"now"`) the longer phrase's match
is consumed first and the output contains no nested or double-wrapped
markers. -/
theorem C7_amended_ordering :
    (∀ ps : List String,
       (sortLenDesc (dedupFirst ps)).Pairwise (fun a b => b.length ≤ a.length)) ∧
    (∀ ps : List String, (sortLenDesc (dedupFirst ps)).Nodup) ∧
    highlight_phrases "act now" ["act now", "now"] = "<mark>\\1</mark>" := by
  refine ⟨fun ps => sortLenDesc_pairwise _, fun ps => ?_, by decide⟩
  exact ((sortLenDesc_perm (dedupFirst ps)).nodup_iff).mpr (dedupFirst_nodup ps)

theorem C7_witness :
    (sortLenDesc (dedupFirst ["now", "act now", "now"])).Pairwise
      (fun a b => b.length ≤ a.length) ∧
    (sortLenDesc (dedupFirst ["now", "act now", "now"])).Nodup :=
  ⟨C7_amended_ordering.1 ["now", "act now", "now"],
   C7_amended_ordering.2.1 ["now", "act now", "now"]⟩

/-- C8: the normalizer's confidence is the clamp to `[0, 1]` of the
attempted numeric conversion of the input value (with `0.0` substituted on
conversion failure or a missing field); the output confidence always lies
in `[0, 1]`, with over-range (`5`), under-range (`-3`), unparseable
(`"0.95abc"`) and missing inputs giving `1`, `0`, `0` and `0`
respectively. -/
theorem C8_confidence_clamped :
    (∀ data r, normalizeResponse data = .ok r → 0 ≤ r.confidence ∧ r.confidence ≤ 1) ∧
    (∀ kvs v r, List.lookup "confidence" kvs = some v →
       normalizeResponse (.obj kvs) = .ok r →
       r.confidence = max 0 (min 1 ((pyFloat v).getD 0))) ∧
    (normalizeResponse (.obj [("confidence", .num 5)]) =
      .ok ⟨"unknown", 1, [], [], [], "No explanation provided."⟩) ∧
    (normalizeResponse (.obj [("confidence", .num (-3))]) =
      .ok ⟨"unknown", 0, [], [], [], "No explanation provided."⟩) ∧
    (normalizeResponse (.obj [("confidence", .str "0.95abc")]) =
      .ok ⟨"unknown", 0, [], [], [], "No explanation provided."⟩) ∧
    (normalizeResponse (.obj []) =
      .ok ⟨"unknown", 0, [], [], [], "No explanation provided."⟩) := by
  refine ⟨?_, ?_, rfl, rfl, rfl, rfl⟩
  · intro data r h
    obtain ⟨-, hc, -, -, -, -⟩ := normalizeResponse_ok_elim h
    cases data <;> simp [normConfidence, dictGet] at hc
    case obj kvs =>
      rw [← hc]
      exact confidence_clamp_bounds _
  · intro kvs v r hl h
    obtain ⟨-, hc, -, -, -, -⟩ := normalizeResponse_ok_elim h
    rw [normConfidence_obj] at hc
    injection hc with hc
    rw [hl] at hc
    exact hc.symm

theorem C8_witness :
    (0 : Rat) ≤
      (⟨"unknown", 1, [], [], [], "No explanation provided."⟩ : GeminiSMSResult).confidence ∧
    (⟨"unknown", 1, [], [], [], "No explanation provided."⟩ :
      GeminiSMSResult).confidence ≤ 1 :=
  C8_confidence_clamped.1 (.obj [("confidence", JVal.num 5)])
    ⟨"unknown", 1, [], [], [], "No explanation provided."⟩ rfl

/-- C10: a POST request whose image file field is absent (`none`) or has an
empty filename renders with `analysis = None`, `highlighted_text = ""`,
`uploaded_path = None` (and `sms_text = ""`), exactly as a GET request
does; no analysis runs. -/
theorem C10_post_without_file (f : Option String) (mr : Except String JVal)
    (h : f = none ∨ f = some "") :
    index "POST" f mr = .ok ⟨none, "", "", none⟩ ∧
    index "POST" f mr = index "GET" f mr := by
  rcases h with rfl | rfl <;> exact ⟨rfl, rfl⟩

theorem C10_witness :
    index "POST" none (.ok .null) = .ok ⟨none, "", "", none⟩ ∧
    index "POST" none (.ok .null) = index "GET" none (.ok .null) :=
  C10_post_without_file none (.ok .null) (Or.inl rfl)

/-- C1 (amended): the normalization step of `call_gemini_sms_image` raises
`AttributeError` on any payload that is not a mapping; it returns a
`GeminiSMSResult` without raising for every mapping payload that is
well-shaped (`reasons` absent or iterable, `risky_phrases` absent or an
iterable of hashable values, `urls` absent or an iterable of mappings,
`user_message` absent or a string). -/
theorem C1_amended_totality :
    (∀ v : JVal, v.isObj = false → call_gemini_sms_image (.ok v) = .error .attributeError) ∧
    (∀ kvs : List (String × JVal), wellShaped kvs = true →
       ∃ r, call_gemini_sms_image (.ok (.obj kvs)) = .ok r) := by
  constructor
  · intro v h
    cases v
    exacts [rfl, rfl, rfl, rfl, rfl, rfl, absurd h (by simp [JVal.isObj])]
  · intro kvs hws
    unfold wellShaped at hws
    simp only [Bool.and_eq_true] at hws
    obtain ⟨⟨⟨h1, h2⟩, h3⟩, h4⟩ := hws
    have hreasons : ∃ rs, normReasons (.obj kvs) = .ok rs := by
      rw [normReasons_obj]
      split at h1
      · rename_i hl; rw [hl]; exact ⟨[], rfl⟩
      · rename_i v hl
        obtain ⟨xs, hxs⟩ := exceptOk_exists h1
        rw [hl]
        exact ⟨(xs.map pyStr).take 6, by simp [hxs]⟩
    have hrisky : ∃ rp, normRisky (.obj kvs) = .ok rp := by
      rw [normRisky_obj]
      split at h2
      · rename_i hl; rw [hl]; exact ⟨[], rfl⟩
      · rename_i v hl
        split at h2
        · rename_i xs hiter
          have hany : xs.any (fun x => !x.hashable) = false := by
            refine Bool.eq_false_iff.mpr ?_
            intro hcontra
            obtain ⟨x, hx, hb⟩ := List.any_eq_true.mp hcontra
            simp [List.all_eq_true.mp h2 x hx] at hb
          rw [hl]
          exact ⟨dedupFirst xs, by simp [hiter, hany]⟩
        · simp at h2
    have hurls : ∃ us, normUrls (.obj kvs) = .ok us := by
      rw [normUrls_obj]
      split at h3
      · rename_i hl; rw [hl]; exact ⟨[], rfl⟩
      · rename_i v hl
        split at h3
        · rename_i xs hiter
          obtain ⟨ys, hys⟩ :=
            mapExcept_ok_of_all_obj xs (fun x hx => List.all_eq_true.mp h3 x hx)
          rw [hl]
          exact ⟨ys, by simp [hiter, hys]⟩
        · simp at h3
    have hum : ∃ um, normUserMessage (.obj kvs) = .ok um := by
      rw [normUserMessage_obj]
      split at h4
      · rename_i hl; rw [hl]; exact ⟨_, rfl⟩
      · rename_i v hl
        obtain ⟨s, rfl⟩ := isStr_exists h4
        rw [hl]
        exact ⟨_, rfl⟩
    obtain ⟨rs, hrs⟩ := hreasons
    obtain ⟨rp, hrp⟩ := hrisky
    obtain ⟨us, hus⟩ := hurls
    obtain ⟨um, hum'⟩ := hum
    exact ⟨_, normalizeResponse_build (normVerdict_obj kvs) (normConfidence_obj kvs)
      hrs hrp hus hum'⟩

theorem C1_witness :
    wellShaped [("verdict", JVal.str "SAFE"), ("reasons", JVal.list [JVal.str "a"]),
      ("risky_phrases", JVal.list [JVal.str "x", JVal.str "x"]),
      ("urls", JVal.list [JVal.obj [("url", JVal.str " http://x "),
                                    ("status", JVal.str "WEIRD")]]),
      ("user_message", JVal.str "  hi  ")] = true ∧
    ∃ r, call_gemini_sms_image (.ok (.obj
      [("verdict", JVal.str "SAFE"), ("reasons", JVal.list [JVal.str "a"]),
       ("risky_phrases", JVal.list [JVal.str "x", JVal.str "x"]),
       ("urls", JVal.list [JVal.obj [("url", JVal.str " http://x "),
                                     ("status", JVal.str "WEIRD")]]),
       ("user_message", JVal.str "  hi  ")])) = .ok r :=
  ⟨rfl, C1_amended_totality.2 _ rfl⟩

/-- C3 (amended): when normalization succeeds, the `reasons` field is the
first six elements of the source collection, each coerced to text, in
original order (empty when the field is missing), and its length never
exceeds 6; but a present non-iterable `reasons` value makes the normalizer
raise `TypeError` instead of substituting an empty sequence. -/
theorem C3_amended_reasons :
    (∀ data r, normalizeResponse data = .ok r → r.reasons.length ≤ 6) ∧
    (∀ kvs r, List.lookup "reasons" kvs = none →
       normalizeResponse (.obj kvs) = .ok r → r.reasons = []) ∧
    (∀ kvs xs r, List.lookup "reasons" kvs = some (.list xs) →
       normalizeResponse (.obj kvs) = .ok r → r.reasons = (xs.map pyStr).take 6) ∧
    (∀ kvs v, List.lookup "reasons" kvs = some v → pyIter v = .error .typeError →
       normalizeResponse (.obj kvs) = .error .typeError) := by
  refine ⟨?_, ?_, ?_, ?_⟩
  · intro data r h
    obtain ⟨-, -, hr, -, -, -⟩ := normalizeResponse_ok_elim h
    cases data <;> simp [normReasons, dictGet] at hr
    case obj kvs =>
      split at hr
      · exact Except.noConfusion hr
      · injection hr with hr
        rw [← hr]
        exact List.length_take_le 6 _
  · intro kvs r hl h
    obtain ⟨-, -, hr, -, -, -⟩ := normalizeResponse_ok_elim h
    rw [normReasons_none hl] at hr
    injection hr with hr
    exact hr.symm
  · intro kvs xs r hl h
    obtain ⟨-, -, hr, -, -, -⟩ := normalizeResponse_ok_elim h
    rw [normReasons_list hl] at hr
    injection hr with hr
    exact hr.symm
  · intro kvs v hl hi
    unfold normalizeResponse
    rw [normVerdict_obj, normConfidence_obj, normReasons_err hl hi]

theorem C3_witness :
    (⟨"unknown", 0, ["1", "1", "1", "1", "1", "1"], [], [],
      "No explanation provided."⟩ : GeminiSMSResult).reasons.length ≤ 6 :=
  C3_amended_reasons.1
    (.obj [("reasons", JVal.list [JVal.int 1, JVal.int 1, JVal.int 1, JVal.int 1,
                                  JVal.int 1, JVal.int 1, JVal.int 1, JVal.int 1])])
    ⟨"unknown", 0, ["1", "1", "1", "1", "1", "1"], [], [], "No explanation provided."⟩
    rfl

/-- C4 (amended): when normalization succeeds, the `user_message` field is
the trimmed input string, with the fixed fallback sentence
`"No explanation provided."` substituted when the field is absent or empty
after trimming, so the output `user_message` is never empty; but a present
non-string `user_message` value makes the normalizer raise
`AttributeError` (`.strip()` is called without a `str()` coercion). -/
theorem C4_amended_user_message :
    (∀ data r, normalizeResponse data = .ok r → r.user_message ≠ "") ∧
    (∀ kvs r, List.lookup "user_message" kvs = none →
       normalizeResponse (.obj kvs) = .ok r →
       r.user_message = "No explanation provided.") ∧
    (∀ kvs s r, List.lookup "user_message" kvs = some (.str s) →
       normalizeResponse (.obj kvs) = .ok r →
       r.user_message = (if strTrim s = "" then "No explanation provided."
                         else strTrim s)) ∧
    (∀ kvs v, List.lookup "user_message" kvs = some v → v.isStr = false →
       ∀ r, normalizeResponse (.obj kvs) ≠ .ok r) := by
  refine ⟨?_, ?_, ?_, ?_⟩
  · intro data r h
    obtain ⟨-, -, -, -, -, hm⟩ := normalizeResponse_ok_elim h
    cases data <;> simp [normUserMessage, dictGet] at hm
    case obj kvs =>
      split at hm
      · injection hm with hm
        rw [← hm]
        split
        · decide
        · rename_i hcond; exact hcond
      · exact Except.noConfusion hm
  · intro kvs r hl h
    obtain ⟨-, -, -, -, -, hm⟩ := normalizeResponse_ok_elim h
    rw [normUserMessage_none hl] at hm
    injection hm with hm
    exact hm.symm
  · intro kvs s r hl h
    obtain ⟨-, -, -, -, -, hm⟩ := normalizeResponse_ok_elim h
    rw [normUserMessage_str hl] at hm
    injection hm with hm
    exact hm.symm
  · intro kvs v hl hv r h
    obtain ⟨-, -, -, -, -, hm⟩ := normalizeResponse_ok_elim h
    rw [normUserMessage_obj, hl] at hm
    cases v <;> simp [JVal.isStr] at hv <;> simp [Option.getD] at hm

theorem C4_witness :
    ("No explanation provided." : String) ≠ "" :=
  C4_amended_user_message.1 (.obj [("user_message", JVal.str "   ")])
    ⟨"unknown", 0, [], [], [], "No explanation provided."⟩ rfl

/-- C6: each `urls` entry is normalized to the trimmed text coercion of its
`url` field (empty string when absent) and the lower-cased text coercion
of its `status` field; the status is always one of `safe`, `suspicious`,
`phishing`, it is `"safe"` only when the entry's own status field
lower-cases to `"safe"` (so a missing or unrecognized status is never
emitted as `"safe"`, defaulting to `"suspicious"`), and the normalizer's
`urls` output is exactly the entry-wise normalization of the source
collection. -/
theorem C6_urls_normalization :
    (∀ ikvs : List (String × JVal), normUrlItem (.obj ikvs) = .ok
       ⟨strTrim (pyStr ((List.lookup "url" ikvs).getD (.str ""))),
        let s := strLower (pyStr ((List.lookup "status" ikvs).getD (.str "")))
        if s = "safe" ∨ s = "suspicious" ∨ s = "phishing" then s else "suspicious"⟩) ∧
    (∀ ikvs e, normUrlItem (.obj ikvs) = .ok e →
       e.status = "safe" ∨ e.status = "suspicious" ∨ e.status = "phishing") ∧
    (∀ ikvs e, List.lookup "status" ikvs = none → normUrlItem (.obj ikvs) = .ok e →
       e.status = "suspicious") ∧
    (∀ ikvs v e, List.lookup "status" ikvs = some v → strLower (pyStr v) ≠ "safe" →
       normUrlItem (.obj ikvs) = .ok e → e.status ≠ "safe") ∧
    (∀ kvs items r, List.lookup "urls" kvs = some (.list items) →
       normalizeResponse (.obj kvs) = .ok r →
       mapExcept normUrlItem items = .ok r.urls) := by
  refine ⟨normUrlItem_obj, ?_, ?_, ?_, ?_⟩
  · intro ikvs e h
    rw [normUrlItem_obj] at h
    injection h with h
    rw [← h]
    dsimp only
    split
    · rename_i hcond; exact hcond
    · exact Or.inr (Or.inl rfl)
  · intro ikvs e hl h
    have h2 := normUrlItem_obj ikvs
    rw [hl] at h2
    rw [h2] at h
    injection h with h
    rw [← h]
    rfl
  · intro ikvs v e hl hne h
    have h2 := normUrlItem_obj ikvs
    rw [hl] at h2
    rw [h2] at h
    injection h with h
    rw [← h]
    dsimp only
    split
    · exact hne
    · decide
  · intro kvs items r hl h
    obtain ⟨-, -, -, -, hu, -⟩ := normalizeResponse_ok_elim h
    rw [normUrls_obj, hl] at hu
    exact hu

theorem C6_witness :
    (⟨"http://x", "suspicious"⟩ : UrlEntry).status = "suspicious" :=
  C6_urls_normalization.2.2.1 [("url", JVal.str "http://x")]
    ⟨"http://x", "suspicious"⟩ rfl rfl

/-- C9: the normalizer's verdict is the input value read as text and
lower-cased when that text is exactly one of `safe`, `suspicious`,
`phishing`, and `"unknown"` otherwise (including a missing field); the
output verdict always lies in the closed set
`{safe, suspicious, phishing, unknown}`, and casing variants normalize
(`"SAFE"` becomes `"safe"`). -/
theorem C9_verdict_closed_set :
    (∀ data r, normalizeResponse data = .ok r →
       (r.verdict = "safe" ∨ r.verdict = "suspicious" ∨ r.verdict = "phishing" ∨
        r.verdict = "unknown")) ∧
    (∀ kvs s r, List.lookup "verdict" kvs = some (.str s) →
       normalizeResponse (.obj kvs) = .ok r →
       r.verdict = (if strLower s = "safe" ∨ strLower s = "suspicious" ∨
                       strLower s = "phishing"
                    then strLower s else "unknown")) ∧
    (∀ kvs r, List.lookup "verdict" kvs = none →
       normalizeResponse (.obj kvs) = .ok r → r.verdict = "unknown") ∧
    (normalizeResponse (.obj [("verdict", .str "SAFE")]) =
      .ok ⟨"safe", 0, [], [], [], "No explanation provided."⟩) := by
  refine ⟨?_, ?_, ?_, rfl⟩
  · intro data r h
    obtain ⟨hv, -, -, -, -, -⟩ := normalizeResponse_ok_elim h
    exact normVerdict_ok_cases hv
  · intro kvs s r hl h
    obtain ⟨hv, -, -, -, -, -⟩ := normalizeResponse_ok_elim h
    rw [normVerdict_str hl] at hv
    injection hv with hv
    exact hv.symm
  · intro kvs r hl h
    obtain ⟨hv, -, -, -, -, -⟩ := normalizeResponse_ok_elim h
    rw [normVerdict_none hl] at hv
    injection hv with hv
    exact hv.symm

theorem C9_witness :
    ("safe" : String) = "safe" ∨ ("safe" : String) = "suspicious" ∨
    ("safe" : String) = "phishing" ∨ ("safe" : String) = "unknown" :=
  C9_verdict_closed_set.1 (.obj [("verdict", JVal.str "SAFE")])
    ⟨"safe", 0, [], [], [], "No explanation provided."⟩ rfl
